import Mathlib

/-!
Verification of the ajv-napi binding (src/lib.rs): a napi binding over a
JSON-Schema compilation/validation engine.  The registry, reference
retriever, draft selection and the validate/isValid entry points are
embedded below directly from the Rust source; the external engine
(schema build, per-keyword validation) and the external JSON text parsers
are modelled as explicit parameters, since their code is not part of this
repository's sources.
-/

namespace AjvNapi

/-- The generic in-memory JSON value (serde_json::Value): object, array,
string, number, bool, null.  Numbers are modelled as integers; no claim
here depends on numeric representation detail. -/
inductive Value where
  | null : Value
  | bool (b : Bool) : Value
  | num (n : Int) : Value
  | str (s : String) : Value
  | arr (elems : List Value) : Value
  | obj (fields : List (String × Value)) : Value
deriving Repr

/-- serde_json's `Value::get(key)`: field lookup on objects, `None` on every
other value kind. -/
def Value.get (v : Value) (key : String) : Option Value :=
  match v with
  | .obj fields => fields.lookup key
  | _ => none

/-- serde_json's `Value::as_str`. -/
def Value.as_str (v : Value) : Option String :=
  match v with
  | .str s => some s
  | _ => none

/-- The registry map (`HashMap<String, Value>`), modelled as an association
list where insertion prepends and lookup takes the first binding — the
observable insert/overwrite semantics of the hash map. -/
abbrev SchemaMap := List (String × Value)

/-- `HashMap::insert`: the new binding shadows any earlier one. -/
def hmInsert (k : String) (v : Value) (m : SchemaMap) : SchemaMap :=
  (k, v) :: m

/-- `HashMap::get`. -/
def hmGet (m : SchemaMap) (k : String) : Option Value :=
  List.lookup k m

/-- Rust's `uri_str.split('#').next().unwrap_or(uri_str)`: the prefix of the
string before its first `#` (the whole string when no `#` occurs). -/
def stripFragment (s : String) : String :=
  String.mk (s.data.takeWhile (fun c => c != '#'))

/-- Rust's `trim_end_matches('/')`: removes every trailing `/` character,
repeatedly. -/
def stripTrailingSlashes (s : String) : String :=
  String.mk ((s.data.reverse.dropWhile (fun c => c == '/')).reverse)

/-- `SchemaRetriever::retrieve` (src/lib.rs lines 24-49): exact match, then
the URI without its fragment, then that base with trailing slashes trimmed;
otherwise an error carrying the original URI. -/
def retrieve (m : SchemaMap) (uri : String) : Except String Value :=
  match hmGet m uri with
  | some schema => .ok schema
  | none =>
    let base := stripFragment uri
    match hmGet m base with
    | some schema => .ok schema
    | none =>
      match hmGet m (stripTrailingSlashes base) with
      | some schema => .ok schema
      | none => .error ("Schema not found: " ++ uri)

/-- The identifier computation of `add_schema` (src/lib.rs lines 67-80):
an explicit key wins; otherwise the document's "$id" (falling back to
legacy "id") must be a string; with neither field, the literal "unknown". -/
def computeId (schema : Value) (key : Option String) : Except String String :=
  match key with
  | some k => .ok k
  | none =>
    match (schema.get "$id").or (schema.get "id") with
    | some idVal =>
      match idVal.as_str with
      | some idStr => .ok idStr
      | none => .error "Schema ID must be a string"
    | none => .ok "unknown"

/-- `Ajv::add_schema` on the registry map: computes the identifier and
inserts (or replaces) the entry under it. -/
def add_schema (m : SchemaMap) (schema : Value) (key : Option String) :
    Except String SchemaMap :=
  match computeId schema key with
  | .ok id => .ok (hmInsert id schema m)
  | .error e => .error e

/-- The closed enumeration of supported drafts (jsonschema::Draft). -/
inductive Draft where
  | draft4 : Draft
  | draft6 : Draft
  | draft7 : Draft
  | draft201909 : Draft
  | draft202012 : Draft
deriving DecidableEq, Repr

/-- The draft-hint match of `compile` (src/lib.rs lines 106-112): the five
canonical meta-schema URIs map to their draft; everything else to `none`. -/
def draftFromUri (uri : String) : Option Draft :=
  if uri = "http://json-schema.org/draft-04/schema#" then some .draft4
  else if uri = "http://json-schema.org/draft-06/schema#" then some .draft6
  else if uri = "http://json-schema.org/draft-07/schema#" then some .draft7
  else if uri = "https://json-schema.org/draft/2019-09/schema" then some .draft201909
  else if uri = "https://json-schema.org/draft/2020-12/schema" then some .draft202012
  else none

/-- The five recognized draft-hint strings, as listed by the interface. -/
def recognizedUris : List String :=
  [ "http://json-schema.org/draft-04/schema#"
  , "http://json-schema.org/draft-06/schema#"
  , "http://json-schema.org/draft-07/schema#"
  , "https://json-schema.org/draft/2019-09/schema"
  , "https://json-schema.org/draft/2020-12/schema" ]

/-- The options handed to the engine's `build`: the retriever's registry
snapshot, the format-validation switch, and the optionally pinned draft. -/
structure OptionsModel where
  retriever : SchemaMap
  validate_formats : Bool
  draft : Option Draft
deriving Repr

/-- The options `Ajv::compile` constructs (src/lib.rs lines 94-116): the
retriever over the registered schemas, formats unconditionally enabled, and
the draft pinned only for a recognized hint. -/
def compileConfig (schemas : SchemaMap) (draftUri : Option String) : OptionsModel :=
  let base : OptionsModel := { retriever := schemas, validate_formats := true, draft := none }
  match draftUri with
  | none => base
  | some uri =>
    match draftFromUri uri with
    | some d => { base with draft := some d }
    | none => base

/-- An error record surfaced by the engine's error iterator: rendered
message, instance path and schema path. -/
structure EngineError where
  message : String
  instance_path : String
  schema_path : String
deriving DecidableEq, Repr

/-- The compiled engine validator (jsonschema::Validator), abstracted by its
two observable operations used by the binding: `is_valid` and `iter_errors`.
The engine's code is external to this repository. -/
structure ValidatorModel where
  is_valid : Value → Bool
  iter_errors : Value → List EngineError

/-- `compile` with the engine's `build` passed explicitly: the binding
builds the options and hands them, with the schema, to the engine. -/
def compileWith (build : OptionsModel → Value → Except String ValidatorModel)
    (schemas : SchemaMap) (schema : Value) (draftUri : Option String) :
    Except String ValidatorModel :=
  build (compileConfig schemas draftUri) schema

/-- The record a single engine error is mapped to (struct AjvError). -/
structure AjvError where
  message : String
  instance_path : String
  schema_path : String
deriving DecidableEq, Repr

/-- struct ValidationResult. -/
structure ValidationResult where
  valid : Bool
  errors : Option (List AjvError)
deriving DecidableEq, Repr

/-- The per-error conversion inside `validate_impl`'s map. -/
def toAjvError (e : EngineError) : AjvError :=
  { message := e.message
  , instance_path := e.instance_path
  , schema_path := e.schema_path }

/-- `NapiValidator::validate_impl` (src/lib.rs lines 199-221). -/
def validate_impl (V : ValidatorModel) (data : Value) : ValidationResult :=
  if V.is_valid data then
    { valid := true, errors := none }
  else
    { valid := false, errors := some ((V.iter_errors data).map toAjvError) }

/-- `NapiValidator::validate`: the value entry point always succeeds. -/
def validate (V : ValidatorModel) (data : Value) : Except String ValidationResult :=
  .ok (validate_impl V data)

/-- `NapiValidator::validate_string`, with the external serde_json parser
passed explicitly; a parse failure surfaces as an "Invalid JSON" error. -/
def validate_string (parse : String → Except String Value) (V : ValidatorModel)
    (dataStr : String) : Except String ValidationResult :=
  match parse dataStr with
  | .error e => .error ("Invalid JSON: " ++ e)
  | .ok data => .ok (validate_impl V data)

/-- The thread-local parse buffer refill: cleared, then the input bytes are
copied in, so its contents equal the input. -/
def parseBufContents (buffer : List Nat) : List Nat := buffer

/-- `NapiValidator::validate_buffer`, with the external simd-json parser
passed explicitly; it parses the copied buffer contents. -/
def validate_buffer (parseBytes : List Nat → Except String Value)
    (V : ValidatorModel) (buffer : List Nat) : Except String ValidationResult :=
  match parseBytes (parseBufContents buffer) with
  | .error e => .error ("Invalid JSON: " ++ e)
  | .ok data => .ok (validate_impl V data)

/-- `NapiValidator::is_valid_string` (src/lib.rs lines 191-197). -/
def is_valid_string (parse : String → Except String Value) (V : ValidatorModel)
    (dataStr : String) : Except String Bool :=
  match parse dataStr with
  | .error e => .error ("Invalid JSON: " ++ e)
  | .ok data => .ok (V.is_valid data)

/-- `NapiValidator::is_valid_buffer` (src/lib.rs lines 176-188). -/
def is_valid_buffer (parseBytes : List Nat → Except String Value)
    (V : ValidatorModel) (buffer : List Nat) : Except String Bool :=
  match parseBytes (parseBufContents buffer) with
  | .error e => .error ("Invalid JSON: " ++ e)
  | .ok data => .ok (V.is_valid data)

/-- A compiled validator's reference into the heap of registry maps: the
address of the cell its retriever's Arc points at. -/
structure CompiledRef where
  addr : Nat
deriving DecidableEq, Repr

/-- The heap model for the Arc-held registry: `cells` is the store of
registry maps, `ptr` the Ajv object's current cell, and `shared` records
whether some compiled validator also holds an Arc to that cell (strong
count greater than one). -/
structure AjvHeap where
  cells : List SchemaMap
  ptr : Nat
  shared : Bool

/-- Read a heap cell. -/
def heapGet (cells : List SchemaMap) (i : Nat) : SchemaMap :=
  cells.getD i []

/-- The registry-snapshot side of `Ajv::compile`: the retriever clones the
Arc of the current map, so the validator references the Ajv's cell and the
cell becomes shared. -/
def compileSnapshot (st : AjvHeap) : CompiledRef × AjvHeap :=
  ({ addr := st.ptr }, { st with shared := true })

/-- `Ajv::add_schema` on the heap model: `Arc::make_mut` mutates the cell in
place when the Arc is unshared, and otherwise clones the map into a fresh
cell, leaving every previously compiled validator's cell untouched. -/
def addSchemaHeap (st : AjvHeap) (schema : Value) (key : Option String) :
    Except String AjvHeap :=
  match computeId schema key with
  | .error e => .error e
  | .ok id =>
    if st.shared then
      let newMap := hmInsert id schema (heapGet st.cells st.ptr)
      .ok { cells := st.cells ++ [newMap], ptr := st.cells.length, shared := false }
    else
      .ok { st with
            cells := st.cells.set st.ptr (hmInsert id schema (heapGet st.cells st.ptr)) }

/-- One registration call; a failed call leaves the registry unchanged. -/
def registerStep (st : AjvHeap) (op : Value × Option String) : AjvHeap :=
  match addSchemaHeap st op.1 op.2 with
  | .ok st' => st'
  | .error _ => st

/-- A whole sequence of registration calls. -/
def registerAll (st : AjvHeap) (ops : List (Value × Option String)) : AjvHeap :=
  ops.foldl registerStep st

/-- The invariant tying a compiled validator's cell `a` to its snapshot map
`M`: the cell stays in bounds and holds `M`, and whenever the Ajv object
still points at it, the cell is marked shared. -/
def SnapshotInv (a : Nat) (M : SchemaMap) (st : AjvHeap) : Prop :=
  a < st.cells.length ∧ st.ptr < st.cells.length ∧
    heapGet st.cells a = M ∧ (st.ptr = a → st.shared = true)

theorem registerStep_inv {a : Nat} {M : SchemaMap} {st : AjvHeap}
    (h : SnapshotInv a M st) (op : Value × Option String) :
    SnapshotInv a M (registerStep st op) := by
  obtain ⟨ha, hp, hM, hsh⟩ := h
  unfold registerStep addSchemaHeap
  cases hc : computeId op.1 op.2 with
  | error e => exact ⟨ha, hp, hM, hsh⟩
  | ok id =>
    cases hs : st.shared with
    | true =>
      simp only [hs, reduceIte]
      refine ⟨?_, ?_, ?_, ?_⟩
      · simpa using Nat.lt_succ_of_lt ha
      · simp
      · simp only [heapGet, List.getD_eq_getElem?_getD] at hM ⊢
        rw [List.getElem?_append_left ha]
        exact hM
      · intro hpa
        exact absurd (hpa ▸ ha) (lt_irrefl _)
    | false =>
      have hptr : st.ptr ≠ a := fun hpa => Bool.false_ne_true (hs ▸ hsh hpa)
      simp only [hs, Bool.false_eq_true, if_false]
      refine ⟨?_, ?_, ?_, ?_⟩
      · simpa using ha
      · simpa using hp
      · simp only [heapGet, List.getD_eq_getElem?_getD] at hM ⊢
        rw [List.getElem?_set_ne hptr]
        exact hM
      · intro hpa
        exact absurd hpa hptr

theorem registerAll_inv {a : Nat} {M : SchemaMap} {st : AjvHeap}
    (h : SnapshotInv a M st) (ops : List (Value × Option String)) :
    SnapshotInv a M (registerAll st ops) := by
  induction ops generalizing st with
  | nil => exact h
  | cons op rest ih => exact ih (registerStep_inv h op)

/-! Concrete fixtures used by witnesses. -/

/-- An engine validator that accepts every instance. -/
def alwaysTrueValidator : ValidatorModel :=
  { is_valid := fun _ => true, iter_errors := fun _ => [] }

/-- An engine validator that rejects every instance with one error record. -/
def alwaysFalseValidator : ValidatorModel :=
  { is_valid := fun _ => false
  , iter_errors := fun _ =>
      [{ message := "expected string, got number"
       , instance_path := ""
       , schema_path := "/type" }] }

/-- A tiny stand-in for the external serde_json parser: accepts exactly the
text "null". -/
def parseNullOnly : String → Except String Value :=
  fun s => if s = "null" then .ok .null else .error "expected value at line 1"

/-- A tiny stand-in for the external simd-json parser: accepts exactly the
bytes of "null". -/
def parseBytesNullOnly : List Nat → Except String Value :=
  fun b => if b = [110, 117, 108, 108] then .ok .null else .error "expected value at byte 0"

/-- C1: the boolean fast path and the detailed check agree on validity —
`validate_impl`'s `valid` field is exactly the engine's `is_valid` answer,
`validate` wraps `validate_impl`, and on the same successfully parsed input
the string and buffer fast paths return precisely that `valid` field. -/
theorem c1_isValid_validate_agreement
    (V : ValidatorModel) (data : Value)
    (parse : String → Except String Value)
    (parseBytes : List Nat → Except String Value)
    (text : String) (buffer : List Nat)
    (hs : parse text = .ok data) (hb : parseBytes buffer = .ok data) :
    (validate_impl V data).valid = V.is_valid data ∧
    validate V data = .ok (validate_impl V data) ∧
    is_valid_string parse V text = .ok ((validate_impl V data).valid) ∧
    is_valid_buffer parseBytes V buffer = .ok ((validate_impl V data).valid) := by
  have hv : (validate_impl V data).valid = V.is_valid data := by
    unfold validate_impl
    by_cases h : V.is_valid data <;> simp [h]
  refine ⟨hv, rfl, ?_, ?_⟩
  · unfold is_valid_string
    rw [hs, hv]
  · unfold is_valid_buffer parseBufContents
    rw [hb, hv]

theorem c1_agreement_witness :
    (validate_impl alwaysTrueValidator Value.null).valid
        = alwaysTrueValidator.is_valid Value.null ∧
    validate alwaysTrueValidator Value.null
        = .ok (validate_impl alwaysTrueValidator Value.null) ∧
    is_valid_string parseNullOnly alwaysTrueValidator "null"
        = .ok ((validate_impl alwaysTrueValidator Value.null).valid) ∧
    is_valid_buffer parseBytesNullOnly alwaysTrueValidator [110, 117, 108, 108]
        = .ok ((validate_impl alwaysTrueValidator Value.null).valid) :=
  c1_isValid_validate_agreement alwaysTrueValidator Value.null
    parseNullOnly parseBytesNullOnly "null" [110, 117, 108, 108] rfl rfl

/-- C9: the string and buffer entry points refine the value entry point —
on input that parses to `data` they return exactly `validate_impl`'s (resp.
the engine's boolean) answer on `data`, and on input that fails to parse
they fail with an "Invalid JSON" error and produce no validation outcome. -/
theorem c9_string_buffer_refine_value
    (V : ValidatorModel)
    (parse : String → Except String Value)
    (parseBytes : List Nat → Except String Value)
    (text text2 : String) (buffer buffer2 : List Nat) (data : Value)
    (e1 e2 : String)
    (hs : parse text = .ok data) (hb : parseBytes buffer = .ok data)
    (hse : parse text2 = .error e1) (hbe : parseBytes buffer2 = .error e2) :
    validate_string parse V text = .ok (validate_impl V data) ∧
    validate_buffer parseBytes V buffer = .ok (validate_impl V data) ∧
    is_valid_string parse V text = .ok (V.is_valid data) ∧
    is_valid_buffer parseBytes V buffer = .ok (V.is_valid data) ∧
    validate_string parse V text2 = .error ("Invalid JSON: " ++ e1) ∧
    is_valid_string parse V text2 = .error ("Invalid JSON: " ++ e1) ∧
    validate_buffer parseBytes V buffer2 = .error ("Invalid JSON: " ++ e2) ∧
    is_valid_buffer parseBytes V buffer2 = .error ("Invalid JSON: " ++ e2) := by
  unfold validate_string validate_buffer is_valid_string is_valid_buffer parseBufContents
  rw [hs, hb, hse, hbe]
  exact ⟨rfl, rfl, rfl, rfl, rfl, rfl, rfl, rfl⟩

theorem c9_refinement_witness :
    validate_string parseNullOnly alwaysFalseValidator "null"
        = .ok (validate_impl alwaysFalseValidator Value.null) ∧
    validate_buffer parseBytesNullOnly alwaysFalseValidator [110, 117, 108, 108]
        = .ok (validate_impl alwaysFalseValidator Value.null) ∧
    is_valid_string parseNullOnly alwaysFalseValidator "null"
        = .ok (alwaysFalseValidator.is_valid Value.null) ∧
    is_valid_buffer parseBytesNullOnly alwaysFalseValidator [110, 117, 108, 108]
        = .ok (alwaysFalseValidator.is_valid Value.null) ∧
    validate_string parseNullOnly alwaysFalseValidator "nul"
        = .error ("Invalid JSON: " ++ "expected value at line 1") ∧
    is_valid_string parseNullOnly alwaysFalseValidator "nul"
        = .error ("Invalid JSON: " ++ "expected value at line 1") ∧
    validate_buffer parseBytesNullOnly alwaysFalseValidator [123]
        = .error ("Invalid JSON: " ++ "expected value at byte 0") ∧
    is_valid_buffer parseBytesNullOnly alwaysFalseValidator [123]
        = .error ("Invalid JSON: " ++ "expected value at byte 0") :=
  c9_string_buffer_refine_value alwaysFalseValidator
    parseNullOnly parseBytesNullOnly "null" "nul" [110, 117, 108, 108] [123]
    Value.null "expected value at line 1" "expected value at byte 0"
    rfl rfl rfl rfl

/-- C6: an invalid outcome carries the complete, ordered, non-empty list of
error records — exactly the engine's error stream, each record made of a
message, an instance path and a schema path — and a valid outcome carries
none.  The engine invariant that its error stream is non-empty whenever
`is_valid` is false is the hypothesis, modelled from the specification of
the external engine. -/
theorem c6_error_records_complete
    (V : ValidatorModel) (data : Value)
    (hengine : V.is_valid data = false → V.iter_errors data ≠ []) :
    (V.is_valid data = true →
      validate_impl V data = { valid := true, errors := none }) ∧
    (V.is_valid data = false →
      validate_impl V data =
        { valid := false, errors := some ((V.iter_errors data).map toAjvError) } ∧
      (V.iter_errors data).map toAjvError ≠ []) := by
  constructor
  · intro h
    simp [validate_impl, h]
  · intro h
    refine ⟨by simp [validate_impl, h], fun hmap => ?_⟩
    exact hengine h (by simpa using hmap)

theorem c6_error_records_witness :
    validate_impl alwaysFalseValidator Value.null =
      { valid := false
      , errors := some ((alwaysFalseValidator.iter_errors Value.null).map toAjvError) } ∧
    (alwaysFalseValidator.iter_errors Value.null).map toAjvError ≠ [] :=
  (c6_error_records_complete alwaysFalseValidator Value.null
      (fun _ => by simp [alwaysFalseValidator])).2 rfl

/-- C10: when an explicit identifier argument is supplied, the document is
never inspected — for every document, including one whose `$id` or `id` is
not a string, registration succeeds and inserts the entry under the
supplied key, so the id-must-be-a-string failure cannot arise. -/
theorem c10_explicit_key_skips_id_fields
    (m : SchemaMap) (schema : Value) (k : String) :
    add_schema m schema (some k) = .ok (hmInsert k schema m) := rfl

theorem c10_explicit_key_witness :
    add_schema [] (Value.obj [("$id", Value.num 3)]) (some "mykey")
      = .ok (hmInsert "mykey" (Value.obj [("$id", Value.num 3)]) []) :=
  c10_explicit_key_skips_id_fields [] (Value.obj [("$id", Value.num 3)]) "mykey"

/-- C4: with the identifier omitted, the entry's identifier is the
document's `$id` (falling back to `id`) when that is a string, the literal
"unknown" when neither field is present, and registration fails with the
id-must-be-a-string error exactly when the declared identifier field exists
but is not a string; every non-failing registration inserts under that
identifier and a later insert under the same identifier shadows the
earlier entry. -/
theorem c4_register_identifier_rules
    (m : SchemaMap) (schema s1 s2 : Value) (i idStr : String) :
    ((schema.get "$id").or (schema.get "id") = some (Value.str idStr) →
      add_schema m schema none = .ok (hmInsert idStr schema m)) ∧
    ((schema.get "$id").or (schema.get "id") = none →
      add_schema m schema none = .ok (hmInsert "unknown" schema m)) ∧
    ((∃ v, (schema.get "$id").or (schema.get "id") = some v ∧ v.as_str = none) ↔
      add_schema m schema none = .error "Schema ID must be a string") ∧
    hmGet (hmInsert i s2 (hmInsert i s1 m)) i = some s2 := by
  refine ⟨?_, ?_, ?_, ?_⟩
  · intro h
    simp [add_schema, computeId, h, Value.as_str]
  · intro h
    simp [add_schema, computeId, h]
  · constructor
    · rintro ⟨v, hv, hvs⟩
      simp [add_schema, computeId, hv, hvs]
    · intro h
      cases hd : (schema.get "$id").or (schema.get "id") with
      | none => simp [add_schema, computeId, hd] at h
      | some v =>
        cases hv : v.as_str with
        | some s => simp [add_schema, computeId, hd, hv] at h
        | none => exact ⟨v, rfl, hv⟩
  · simp [hmGet, hmInsert, List.lookup]

theorem c4_register_witness :
    add_schema [] (Value.obj [("$id", Value.str "https://example.com/s")]) none
      = .ok (hmInsert "https://example.com/s"
          (Value.obj [("$id", Value.str "https://example.com/s")]) []) ∧
    add_schema [] (Value.obj [("$id", Value.num 3)]) none
      = .error "Schema ID must be a string" ∧
    add_schema [] (Value.obj []) none
      = .ok (hmInsert "unknown" (Value.obj []) []) ∧
    hmGet (hmInsert "k" (Value.num 2) (hmInsert "k" (Value.num 1) [])) "k"
      = some (Value.num 2) := by
  refine ⟨?_, ?_, ?_, ?_⟩
  · exact (c4_register_identifier_rules [] (Value.obj [("$id", Value.str "https://example.com/s")])
      Value.null Value.null "x" "https://example.com/s").1 rfl
  · exact (c4_register_identifier_rules [] (Value.obj [("$id", Value.num 3)])
      Value.null Value.null "x" "x").2.2.1.mp ⟨Value.num 3, rfl, rfl⟩
  · exact (c4_register_identifier_rules [] (Value.obj [])
      Value.null Value.null "x" "x").2.1 rfl
  · exact (c4_register_identifier_rules [] Value.null
      (Value.num 1) (Value.num 2) "k" "x").2.2.2

/-- C5: a draft hint equal to one of the five canonical meta-schema URIs
pins the corresponding draft in the build options; any other hint string is
silently ignored — the options are exactly those of a hint-free compile, so
for every engine the compilation result is unchanged and an unrecognized
hint never by itself makes compilation fail. -/
theorem c5_draft_hint_recognition
    (schemas : SchemaMap) (uri : String)
    (hunrec : uri ∉ recognizedUris) :
    (compileConfig schemas (some "http://json-schema.org/draft-04/schema#")).draft
        = some Draft.draft4 ∧
    (compileConfig schemas (some "http://json-schema.org/draft-06/schema#")).draft
        = some Draft.draft6 ∧
    (compileConfig schemas (some "http://json-schema.org/draft-07/schema#")).draft
        = some Draft.draft7 ∧
    (compileConfig schemas (some "https://json-schema.org/draft/2019-09/schema")).draft
        = some Draft.draft201909 ∧
    (compileConfig schemas (some "https://json-schema.org/draft/2020-12/schema")).draft
        = some Draft.draft202012 ∧
    compileConfig schemas (some uri) = compileConfig schemas none ∧
    (∀ (build : OptionsModel → Value → Except String ValidatorModel) (schema : Value),
      compileWith build schemas schema (some uri)
        = compileWith build schemas schema none) := by
  have hnone : draftFromUri uri = none := by
    simp only [recognizedUris, List.mem_cons, List.mem_singleton, not_or] at hunrec
    obtain ⟨h1, h2, h3, h4, h5, _⟩ := hunrec
    simp [draftFromUri, h1, h2, h3, h4, h5]
  have hcfg : compileConfig schemas (some uri) = compileConfig schemas none := by
    simp [compileConfig, hnone]
  exact ⟨rfl, rfl, rfl, rfl, rfl, hcfg,
    fun build schema => by unfold compileWith; rw [hcfg]⟩

theorem c5_draft_hint_witness :
    (compileConfig [] (some "http://json-schema.org/draft-04/schema#")).draft
        = some Draft.draft4 ∧
    (compileConfig [] (some "http://json-schema.org/draft-06/schema#")).draft
        = some Draft.draft6 ∧
    (compileConfig [] (some "http://json-schema.org/draft-07/schema#")).draft
        = some Draft.draft7 ∧
    (compileConfig [] (some "https://json-schema.org/draft/2019-09/schema")).draft
        = some Draft.draft201909 ∧
    (compileConfig [] (some "https://json-schema.org/draft/2020-12/schema")).draft
        = some Draft.draft202012 ∧
    compileConfig [] (some "urn:bogus-draft") = compileConfig [] none ∧
    (∀ (build : OptionsModel → Value → Except String ValidatorModel) (schema : Value),
      compileWith build [] schema (some "urn:bogus-draft")
        = compileWith build [] schema none) :=
  c5_draft_hint_recognition [] "urn:bogus-draft" (by decide)

/-- C8: format validation is unconditionally enabled — for every draft hint
the options handed to the engine's build carry the format switch set, so
any engine that rejects a format-violating instance whenever that switch is
set produces a compiled validator rejecting that instance. -/
theorem c8_formats_always_enabled
    (schemas : SchemaMap) (schema inst : Value) (hint : Option String)
    (build : OptionsModel → Value → Except String ValidatorModel)
    (V : ValidatorModel)
    (hbuild : compileWith build schemas schema hint = .ok V)
    (hfmt : ∀ (opts : OptionsModel) (W : ValidatorModel),
      opts.validate_formats = true → build opts schema = .ok W →
      W.is_valid inst = false) :
    (compileConfig schemas hint).validate_formats = true ∧
    V.is_valid inst = false := by
  have hf : (compileConfig schemas hint).validate_formats = true := by
    cases hint with
    | none => rfl
    | some u =>
      cases h : draftFromUri u <;> simp [compileConfig, h]
  exact ⟨hf, hfmt _ V hf hbuild⟩

theorem c8_formats_witness :
    (compileConfig [] (some "http://json-schema.org/draft-07/schema#")).validate_formats
        = true ∧
    alwaysFalseValidator.is_valid (Value.str "not-an-email") = false :=
  c8_formats_always_enabled [] (Value.obj [("format", Value.str "email")])
    (Value.str "not-an-email") (some "http://json-schema.org/draft-07/schema#")
    (fun _ _ => .ok alwaysFalseValidator) alwaysFalseValidator rfl
    (fun _ W _ hW => by cases hW; rfl)

/-! String helper lemmas for the retriever's normalization steps. -/

theorem takeWhile_eq_self_of_no_hash {l : List Char} (h : '#' ∉ l) :
    l.takeWhile (fun c => c != '#') = l := by
  induction l with
  | nil => rfl
  | cons c cs ih =>
    have hc : c ≠ '#' := fun hcc => h (hcc ▸ List.mem_cons_self c cs)
    simp [List.takeWhile_cons, hc, ih (fun hm => h (List.mem_cons_of_mem _ hm))]

theorem dropWhile_eq_self_of_head_ne {l : List Char}
    (h : l.head? ≠ some '/') :
    l.dropWhile (fun c => c == '/') = l := by
  cases l with
  | nil => rfl
  | cons c cs =>
    have hc : c ≠ '/' := fun hcc => h (by simp [hcc])
    simp [List.dropWhile_cons, hc]

theorem string_data_append (a b : String) : (a ++ b).data = a.data ++ b.data := by
  cases a
  cases b
  rfl

theorem stripFragment_of_no_hash {s : String} (h : '#' ∉ s.data) :
    stripFragment s = s := by
  cases s with
  | mk l =>
    show String.mk (l.takeWhile (fun c => c != '#')) = String.mk l
    rw [takeWhile_eq_self_of_no_hash h]

theorem stripTrailingSlashes_append_slash {s : String}
    (h : s.data.getLast? ≠ some '/') :
    stripTrailingSlashes (s ++ "/") = s := by
  cases s with
  | mk l =>
    have hl : l.getLast? ≠ some '/' := h
    show String.mk (((l ++ ['/']).reverse.dropWhile (fun c => c == '/')).reverse)
        = String.mk l
    rw [List.reverse_append]
    show String.mk ((('/' :: l.reverse).dropWhile (fun c => c == '/')).reverse)
        = String.mk l
    rw [List.dropWhile_cons]
    simp only [beq_self_eq_true, if_true]
    rw [dropWhile_eq_self_of_head_ne (by rw [List.head?_reverse]; exact hl)]
    rw [List.reverse_reverse]

/-- C2 counterexample: with only the identifier "a/" registered, resolving
"a" (the identifier with its trailing slash stripped) does not return the
registered document — the code only strips slashes from the query, it never
appends one — so the claimed slash-insensitive round trip fails in the
stripped-query direction. -/
theorem c2_counterexample_slash_direction :
    retrieve [("a/", Value.null)] "a" = .error ("Schema not found: " ++ "a") := rfl

/-- C2 (amended): for every identifier registered with document d, resolve
of that identifier returns d; and for a registered identifier that does not
end in '/', contains no '#', and whose slash-suffixed form is not itself
registered, resolve of the identifier with a trailing '/' appended also
returns d.  The converse direction of the original claim (resolving a
registered slash-terminated identifier by its stripped form) does not hold. -/
theorem c2_registry_roundtrip
    (m : SchemaMap) (id : String) (d : Value)
    (hreg : hmGet m id = some d) :
    retrieve m id = .ok d ∧
    (id.data.getLast? ≠ some '/' → '#' ∉ id.data →
      hmGet m (id ++ "/") = none → retrieve m (id ++ "/") = .ok d) := by
  constructor
  · simp only [retrieve]
    rw [hreg]
  · intro hnoslash hnohash hfree
    have hfrag : stripFragment (id ++ "/") = id ++ "/" := by
      apply stripFragment_of_no_hash
      rw [string_data_append]
      simp only [List.mem_append, not_or]
      exact ⟨hnohash, by decide⟩
    have hslash : stripTrailingSlashes (id ++ "/") = id :=
      stripTrailingSlashes_append_slash hnoslash
    simp only [retrieve]
    rw [hfrag, hfree, hslash, hreg]

theorem c2_roundtrip_witness :
    retrieve [("b/", Value.bool true)] "b/" = .ok (Value.bool true) ∧
    retrieve [("a", Value.null)] "a" = .ok Value.null ∧
    retrieve [("a", Value.null)] ("a" ++ "/") = .ok Value.null :=
  ⟨(c2_registry_roundtrip [("b/", Value.bool true)] "b/" (Value.bool true) rfl).1,
   (c2_registry_roundtrip [("a", Value.null)] "a" Value.null rfl).1,
   (c2_registry_roundtrip [("a", Value.null)] "a" Value.null rfl).2
     (by decide) (by decide) rfl⟩

/-- The resolution procedure step 3 exactly as the claim words it: the base
URI with a single trailing '/' stripped. -/
def stripSingleTrailingSlash (s : String) : String :=
  match s.data.reverse with
  | c :: rest => if c = '/' then String.mk rest.reverse else s
  | [] => s

/-- C3 counterexample: with "a" registered, the URI "a//" matches none of
the three attempts the claim describes (exact, fragment-stripped, single
trailing slash stripped — the last yielding "a/"), so the claim requires a
SchemaNotFound failure; the code instead strips BOTH slashes and succeeds. -/
theorem c3_counterexample_double_slash :
    retrieve [("a", Value.null)] "a//" = .ok Value.null ∧
    hmGet [("a", Value.null)] "a//" = none ∧
    hmGet [("a", Value.null)] (stripFragment "a//") = none ∧
    hmGet [("a", Value.null)] (stripSingleTrailingSlash (stripFragment "a//")) = none :=
  ⟨rfl, rfl, rfl, rfl⟩

/-- C3 (amended): resolution proceeds as three distinct attempts in order —
exact match, the URI with any trailing '#fragment' stripped, and that base
with ALL trailing '/' characters stripped (not just a single one); when no
attempt matches, it fails with a SchemaNotFound error carrying the original
URI. -/
theorem c3_resolution_attempts (m : SchemaMap) (uri : String) (d : Value) :
    (hmGet m uri = some d → retrieve m uri = .ok d) ∧
    (hmGet m uri = none → hmGet m (stripFragment uri) = some d →
      retrieve m uri = .ok d) ∧
    (hmGet m uri = none → hmGet m (stripFragment uri) = none →
      hmGet m (stripTrailingSlashes (stripFragment uri)) = some d →
      retrieve m uri = .ok d) ∧
    (hmGet m uri = none → hmGet m (stripFragment uri) = none →
      hmGet m (stripTrailingSlashes (stripFragment uri)) = none →
      retrieve m uri = .error ("Schema not found: " ++ uri)) := by
  refine ⟨?_, ?_, ?_, ?_⟩
  · intro h1
    simp only [retrieve]
    rw [h1]
  · intro h1 h2
    simp only [retrieve]
    rw [h1, h2]
  · intro h1 h2 h3
    simp only [retrieve]
    rw [h1, h2, h3]
  · intro h1 h2 h3
    simp only [retrieve]
    rw [h1, h2, h3]

theorem c3_resolution_witness :
    retrieve [("s", Value.null)] "s#frag" = .ok Value.null ∧
    retrieve [("s", Value.null)] "nowhere"
      = .error ("Schema not found: " ++ "nowhere") :=
  ⟨(c3_resolution_attempts [("s", Value.null)] "s#frag" Value.null).2.1 rfl rfl,
   (c3_resolution_attempts [("s", Value.null)] "nowhere" Value.null).2.2.2 rfl rfl rfl⟩

/-- C7: compilation takes a point-in-time view of the registry — after any
sequence of later register calls, the heap cell a compiled validator's
retriever points at still holds exactly the map captured at compile time
(Arc copy-on-write clones the map for the registry instead of mutating the
shared cell), so a validator built from that snapshot behaves identically
on every instance. -/
theorem c7_compile_point_in_time
    (st : AjvHeap) (hwf : st.ptr < st.cells.length)
    (ops : List (Value × Option String)) :
    heapGet (registerAll (compileSnapshot st).2 ops).cells (compileSnapshot st).1.addr
      = heapGet st.cells st.ptr ∧
    (∀ (buildV : SchemaMap → Value → ValidatorModel) (schema inst : Value),
      validate_impl
          (buildV (heapGet (registerAll (compileSnapshot st).2 ops).cells
              (compileSnapshot st).1.addr) schema) inst
        = validate_impl (buildV (heapGet st.cells st.ptr) schema) inst ∧
      (buildV (heapGet (registerAll (compileSnapshot st).2 ops).cells
          (compileSnapshot st).1.addr) schema).is_valid inst
        = (buildV (heapGet st.cells st.ptr) schema).is_valid inst) := by
  have hin : SnapshotInv st.ptr (heapGet st.cells st.ptr) (compileSnapshot st).2 :=
    ⟨hwf, hwf, rfl, fun _ => rfl⟩
  have h' : heapGet (registerAll (compileSnapshot st).2 ops).cells
      (compileSnapshot st).1.addr = heapGet st.cells st.ptr :=
    (registerAll_inv hin ops).2.2.1
  exact ⟨h', fun buildV schema inst => by rw [h']; exact ⟨rfl, rfl⟩⟩

theorem c7_point_in_time_witness :
    heapGet (registerAll (compileSnapshot ⟨[[]], 0, false⟩).2
        [(Value.null, some "k")]).cells
        (compileSnapshot (⟨[[]], 0, false⟩ : AjvHeap)).1.addr
      = heapGet (⟨[[]], 0, false⟩ : AjvHeap).cells (⟨[[]], 0, false⟩ : AjvHeap).ptr ∧
    (∀ (buildV : SchemaMap → Value → ValidatorModel) (schema inst : Value),
      validate_impl
          (buildV (heapGet (registerAll (compileSnapshot ⟨[[]], 0, false⟩).2
              [(Value.null, some "k")]).cells
              (compileSnapshot (⟨[[]], 0, false⟩ : AjvHeap)).1.addr) schema) inst
        = validate_impl
            (buildV (heapGet (⟨[[]], 0, false⟩ : AjvHeap).cells
                (⟨[[]], 0, false⟩ : AjvHeap).ptr) schema) inst ∧
      (buildV (heapGet (registerAll (compileSnapshot ⟨[[]], 0, false⟩).2
          [(Value.null, some "k")]).cells
          (compileSnapshot (⟨[[]], 0, false⟩ : AjvHeap)).1.addr) schema).is_valid inst
        = (buildV (heapGet (⟨[[]], 0, false⟩ : AjvHeap).cells
            (⟨[[]], 0, false⟩ : AjvHeap).ptr) schema).is_valid inst) :=
  c7_compile_point_in_time ⟨[[]], 0, false⟩ (by decide) [(Value.null, some "k")]

end AjvNapi
